import Mathlib

/-!
Verification of the amor-ui component library's specified behaviour.

This file shallowly embeds the prop-to-output logic of the widgets of the
amor-ui repository (a React presentational component library) and proves the
specified properties about them.

Modelling conventions:
* JavaScript numbers are modelled by `JsNum` (a rational together with the
  three non-finite IEEE values `+Infinity`, `-Infinity`, `NaN`) where
  non-finite behaviour matters (ProgressBar, RatingStars.roundTo), by `ℚ`
  where only ordered-field behaviour matters (Counter), and by `ℤ` where the
  source only ever works with integral values (Pagination pages, calendar
  day numbers).
* JavaScript `Date` values are modelled by `JsDate`: a calendar day number
  (days since the Unix epoch) together with a rational time-of-day offset;
  comparison is lexicographic, exactly matching timestamp comparison.
  Calendar arithmetic (`new Date(y, m, 1)`, `setDate`) is modelled by
  `daysFromCivil`, the standard civil-from-days conversion used by
  ECMAScript implementations, and `dayOfWeek z = (z + 4) % 7`
  (day 0 = 1970-01-01, a Thursday, `getDay() = 4`).
* A widget "invoking a callback" is modelled by the function returning
  `some payload`; returning `none` models the callback not being invoked.
* Record lookups keyed by enumeration strings (`sizeStyles[size]`) are
  modelled by association-list lookup returning `Option String`
  (`none` models JavaScript `undefined`).
-/

namespace AmorUI

/-! ### JavaScript number model -/

/-- A JavaScript (IEEE-754 double) number, abstracted: a rational for finite
values plus the non-finite values. `-0` is identified with `0`, and finite
rounding error is ignored; the embedded source only relies on order,
clamping and the finite/non-finite distinction. -/
inductive JsNum where
  | fin : ℚ → JsNum
  | posInf : JsNum
  | negInf : JsNum
  | nan : JsNum
deriving DecidableEq

namespace JsNum

/-- JavaScript subtraction `a - b` on the `JsNum` model. -/
def sub : JsNum → JsNum → JsNum
  | nan, _ => nan
  | _, nan => nan
  | fin a, fin b => fin (a - b)
  | fin _, posInf => negInf
  | fin _, negInf => posInf
  | posInf, fin _ => posInf
  | negInf, fin _ => negInf
  | posInf, negInf => posInf
  | negInf, posInf => negInf
  | posInf, posInf => nan
  | negInf, negInf => nan

/-- JavaScript multiplication `a * b` on the `JsNum` model
(`Infinity * 0 = NaN`). -/
def mul : JsNum → JsNum → JsNum
  | nan, _ => nan
  | _, nan => nan
  | fin a, fin b => fin (a * b)
  | fin a, posInf => if 0 < a then posInf else if a < 0 then negInf else nan
  | fin a, negInf => if 0 < a then negInf else if a < 0 then posInf else nan
  | posInf, fin b => if 0 < b then posInf else if b < 0 then negInf else nan
  | negInf, fin b => if 0 < b then negInf else if b < 0 then posInf else nan
  | posInf, posInf => posInf
  | posInf, negInf => negInf
  | negInf, posInf => negInf
  | negInf, negInf => posInf

/-- JavaScript division `a / b` on the `JsNum` model (`x / 0` with `x ≠ 0`
gives an infinity since the model's only zero is `+0`; `0 / 0 = NaN`;
`Infinity / Infinity = NaN`). -/
def div : JsNum → JsNum → JsNum
  | nan, _ => nan
  | _, nan => nan
  | fin a, fin b =>
      if b = 0 then (if a = 0 then nan else if 0 < a then posInf else negInf)
      else fin (a / b)
  | fin _, posInf => fin 0
  | fin _, negInf => fin 0
  | posInf, fin b => if b < 0 then negInf else posInf
  | negInf, fin b => if b < 0 then posInf else negInf
  | posInf, posInf => nan
  | posInf, negInf => nan
  | negInf, posInf => nan
  | negInf, negInf => nan

/-- JavaScript `Math.min` (NaN-propagating, as used with two arguments). -/
def jsMin : JsNum → JsNum → JsNum
  | nan, _ => nan
  | _, nan => nan
  | fin a, fin b => fin (min a b)
  | negInf, _ => negInf
  | _, negInf => negInf
  | posInf, x => x
  | x, posInf => x

/-- JavaScript `Math.max` (NaN-propagating, as used with two arguments). -/
def jsMax : JsNum → JsNum → JsNum
  | nan, _ => nan
  | _, nan => nan
  | fin a, fin b => fin (max a b)
  | posInf, _ => posInf
  | _, posInf => posInf
  | negInf, x => x
  | x, negInf => x

/-- JavaScript `Number.isFinite`. -/
def isFinite : JsNum → Bool
  | fin _ => true
  | _ => false

/-- JavaScript `Math.round` (rounds half toward positive infinity). -/
def jsRound : JsNum → JsNum
  | fin q => fin (⌊q + 1/2⌋ : ℤ)
  | posInf => posInf
  | negInf => negInf
  | nan => nan

end JsNum

/-! ### ProgressBar (src/src/atoms/ProgressBar/ProgressBar.tsx) -/

namespace ProgressBar

open JsNum

/-- ProgressBar.tsx lines 56-57:
`const clamp = (v, min, max) => Number.isFinite(v) ? Math.min(max, Math.max(min, v)) : min`. -/
def clamp (v mn mx : JsNum) : JsNum :=
  if v.isFinite then jsMin mx (jsMax mn v) else mn

/-- ProgressBar.tsx line 129: `const safeMin = Math.min(min, max)`. -/
def safeMin (mn mx : JsNum) : JsNum := jsMin mn mx

/-- ProgressBar.tsx line 130: `const safeMax = Math.max(min, max)`. -/
def safeMax (mn mx : JsNum) : JsNum := jsMax mn mx

/-- ProgressBar.tsx line 131: `const span = Math.max(1, safeMax - safeMin)`. -/
def span (mn mx : JsNum) : JsNum :=
  jsMax (fin 1) (sub (safeMax mn mx) (safeMin mn mx))

/-- ProgressBar.tsx line 132:
`const pVal = clamp(((value - safeMin) / span) * 100, 0, 100)`. -/
def pVal (value mn mx : JsNum) : JsNum :=
  clamp (mul (div (sub value (safeMin mn mx)) (span mn mx)) (fin 100)) (fin 0) (fin 100)

/-- ProgressBar.tsx line 215:
`const ariaNow = indeterminate ? undefined : Math.round(pVal)`. -/
def ariaNow (indeterminate : Bool) (value mn mx : JsNum) : Option JsNum :=
  if indeterminate then none else some (jsRound (pVal value mn mx))

/-- The fill-percentage formula exactly as the specification claim words it:
`clamp(100 * (value - min') / max(1, max' - min'), 0, 100)` with
`min' = min(min, max)` and `max' = max(min, max)`. -/
def specPct (value mn mx : JsNum) : JsNum :=
  clamp (div (mul (fin 100) (sub value (jsMin mn mx))) (jsMax (fin 1) (sub (jsMax mn mx) (jsMin mn mx))))
    (fin 0) (fin 100)

end ProgressBar

/-! ### RatingStars (src/src/atoms/RatingStars/RatingStars.tsx) -/

namespace RatingStars

open JsNum

/-- RatingStars.tsx lines 102-105:
`const clamp = (n) => Math.max(0, Math.min(maxRating, n))`. -/
def clamp (maxRating n : JsNum) : JsNum := jsMax (fin 0) (jsMin maxRating n)

/-- RatingStars.tsx lines 106-109:
`const roundTo = (n) => Math.round(n / precision) * precision`. -/
def roundTo (precision n : JsNum) : JsNum := mul (jsRound (div n precision)) precision

/-- RatingStars.tsx line 97: `const safeSize = sizeStyles[size] ? size : "md"`,
over the keys of `sizeStyles` (lines 39-45). All style strings are non-empty,
so record-lookup truthiness coincides with lookup success. -/
def sizeStyles : List (String × String) :=
  [("xs", "w-3 h-3"), ("sm", "w-4 h-4"), ("md", "w-5 h-5"), ("lg", "w-6 h-6"), ("xl", "w-8 h-8")]

/-- RatingStars.tsx line 97. -/
def safeSize (size : String) : String :=
  if (sizeStyles.lookup size).isSome then size else "md"

end RatingStars

/-! ### Badge (src/src/atoms/Badge/Badge.tsx) -/

namespace Badge

/-- Badge.tsx lines 74-80: the `sizes` record. -/
def sizes : List (String × String) :=
  [("xs", "px-1.5 py-0.5 text-xs"), ("sm", "px-2 py-0.5 text-xs"), ("md", "px-2.5 py-1 text-sm"),
    ("lg", "px-3 py-1.5 text-base"), ("xl", "px-4 py-2 text-lg")]

/-- Badge.tsx line 107: `const safeSize = sizes[size] ? size : "md"`. All
style strings are non-empty, so truthiness coincides with lookup success. -/
def safeSize (size : String) : String :=
  if (sizes.lookup size).isSome then size else "md"

end Badge

/-! ### Avatar (src/unnamed/part_000) -/

namespace Avatar

/-- Avatar source lines 23-31: the `sizeStyles` record (class strings
abbreviated to their text-size token; only lookup success matters here). -/
def sizeStyles : List (String × String) :=
  [("xs", "w-6 h-6 text-xs"), ("sm", "w-8 h-8 text-sm"), ("md", "w-10 h-10 text-base"),
    ("lg", "w-12 h-12 text-lg"), ("xl", "w-16 h-16 text-xl"), ("2xl", "w-20 h-20 text-2xl")]

/-- Avatar source line 82: `const safeSize = sizeStyles[size] ? size : "md"`. -/
def safeSize (size : String) : String :=
  if (sizeStyles.lookup size).isSome then size else "md"

end Avatar

/-! ### Counter (src/src/atoms/Counter/Counter.tsx) -/

namespace Counter

/-- Counter.tsx lines 54-58: the `sizeStyles` record. -/
def sizeStyles : List (String × String) :=
  [("sm", "h-8 text-sm rounded-md"), ("md", "h-10 text-base rounded-lg"),
    ("lg", "h-12 text-lg rounded-xl")]

/-- Counter.tsx line 109: `const safeSize = sizeStyles[size]` — a plain
record lookup with no fallback; an unknown key yields `undefined` (`none`). -/
def safeSize (size : String) : Option String := sizeStyles.lookup size

/-- The size-style fragment that actually ends up in the root `className`
(Counter.tsx lines 115-119): `undefined` is turned into the empty string by
`Array.prototype.join`. -/
def sizeClass (size : String) : String := (safeSize size).getD ""

/-- Counter.tsx lines 100-103: the plus-button handler
`inc = () => { if (disabled) return; setCount(Math.min(count + step, max)) }`.
`some v` is the value passed to `setCount` (hence to `onChange`); `none`
means no state change and no callback. -/
def inc (disabled : Bool) (count step mx : ℚ) : Option ℚ :=
  if disabled then none else some (min (count + step) mx)

/-- Counter.tsx lines 104-107: the minus-button handler
`dec = () => { if (disabled) return; setCount(Math.max(count - step, min)) }`. -/
def dec (disabled : Bool) (count step mn : ℚ) : Option ℚ :=
  if disabled then none else some (max (count - step) mn)

end Counter

/-! ### useControllableState (Counter.tsx lines 27-49; generic version in the
FilterChip source, identical logic) -/

namespace Controllable

/-- The reported current value: `value !== undefined ? value : state`. -/
def current {α : Type} (value : Option α) (state : α) : α :=
  match value with
  | some v => v
  | none => state

/-- The `set` callback (lines 40-46): returns the internal state after the
call together with the payload passed to `onChange`.
`if (!isControlled) setState(next); onChange?.(next)`. -/
def set {α : Type} (value : Option α) (state next : α) : α × α :=
  (match value with
    | some _ => state
    | none => next,
   next)

end Controllable

/-! ### Locale validity and Intl construction (DateInput.tsx lines 117-121) -/

namespace Intl

/-- Characters that may appear in a structurally valid BCP 47 language tag:
ASCII alphanumerics and the subtag separator. -/
def isTagChar (c : Char) : Bool := c.isAlphanum || c = '-'

/-- No subtag of the dash-separated list is empty after the first character
(no `--`, and no trailing `-`). -/
def subtagsNonEmpty : List Char → Bool
  | [] => true
  | ['-'] => false
  | '-' :: '-' :: _ => false
  | _ :: rest => subtagsNonEmpty rest

/-- A sound under-approximation of ECMA-402 `IsStructurallyValidLanguageTag`:
every string rejected here is rejected by every conforming implementation
(empty string, character outside `[A-Za-z0-9-]`, or an empty subtag).
Strings accepted here may still be invalid in full ECMA-402; the proofs only
rely on the rejecting direction. -/
def localeWellFormed (s : String) : Bool :=
  !s.data.isEmpty && s.data.all isTagChar && s.data.head? != some '-' && subtagsNonEmpty s.data

/-- `new Intl.DateTimeFormat(locale, options)`: per ECMA-402 the constructor
throws a `RangeError` when the locale is not a structurally valid language
tag (options never throw for the option bags the source passes). -/
def DateTimeFormatNew (locale : String) : Except String Unit :=
  if localeWellFormed locale then .ok () else .error "RangeError"

end Intl

namespace DateInput

/-- DateInput.tsx lines 117-121, the first statements of the render body that
depend on props: `const fmt = new Intl.DateTimeFormat(locale, displayFormat);`
`const monthFmt = new Intl.DateTimeFormat(locale, { month: "long", year: "numeric" });`
Returns `ok` when rendering gets past formatter construction, `error` when
the constructor throws. -/
def renderFormats (locale : String) : Except String Unit := do
  let _ ← Intl.DateTimeFormatNew locale
  let _ ← Intl.DateTimeFormatNew locale
  pure ()

end DateInput

/-! ### Pagination (src/unnamed/part_004) -/

namespace Pagination

/-- Pagination source lines 130-132:
`function clamp(n, min, max) { return Math.max(min, Math.min(n, max)) }`. -/
def clamp (n mn mx : ℤ) : ℤ := max mn (min n mx)

/-- Pagination source lines 168-171:
`function range(start, end) { if (end < start) return []; return Array.from({length: end - start + 1}, (_, i) => start + i) }`. -/
def range (start e : ℤ) : List ℤ :=
  if e < start then [] else (List.range (e - start + 1).toNat).map (fun i : ℕ => start + (i : ℤ))

/-- Pagination source line 134: `type RangeItem = number | "ellipsis"`. -/
inductive RangeItem where
  | page : ℤ → RangeItem
  | ellipsis : RangeItem
deriving DecidableEq

/-- Pagination source lines 136-166: `buildRange`. -/
def buildRange (page totalPages siblingCount boundaryCount : ℤ) : List RangeItem :=
  let startPages := range 1 (min boundaryCount totalPages)
  let endPages := range (max (totalPages - boundaryCount + 1) (boundaryCount + 1)) totalPages
  let left := max (page - siblingCount) (boundaryCount + 1)
  let right := min (page + siblingCount) (totalPages - boundaryCount)
  let middlePages := range left right
  let items0 := startPages.map RangeItem.page
  let items1 := if boundaryCount + 1 < left then items0 ++ [RangeItem.ellipsis] else items0
  let items2 := items1 ++ middlePages.map RangeItem.page
  let items3 := if right < totalPages - boundaryCount then items2 ++ [RangeItem.ellipsis] else items2
  endPages.foldl
    (fun acc p => if RangeItem.page p ∈ acc then acc else acc ++ [RangeItem.page p]) items3

/-- The numeric entries of a built range, in order. -/
def numeric (l : List RangeItem) : List ℤ :=
  l.filterMap (fun it => match it with | .page n => some n | .ellipsis => none)

/-- Every `"ellipsis"` entry stands between two numeric entries that omit at
least one page number between them. -/
def gapSound (l : List RangeItem) : Prop :=
  ∀ pre suf, l = pre ++ RangeItem.ellipsis :: suf →
    ∃ n1 n2, pre.getLast? = some (RangeItem.page n1) ∧ suf.head? = some (RangeItem.page n2) ∧
      n1 + 1 < n2

/-- Pagination source line 203:
`const totalPages = Math.max(1, Math.ceil(total / Math.max(1, pageSize)))`,
for the integral prop values the component is used with. -/
def totalPages (total pageSize : ℤ) : ℤ :=
  max 1 ⌈(total : ℚ) / ((max 1 pageSize : ℤ) : ℚ)⌉

/-- Pagination source lines 211-215: `goTo`. `some v` is the value passed to
`onPageChange`; `none` means the callback is not invoked.
`if (disabled) return; const next = clamp(n, 1, totalPages); if (next !== page) onPageChange(next)`. -/
def goTo (disabled : Bool) (page totalPages n : ℤ) : Option ℤ :=
  if disabled then none
  else
    let next := clamp n 1 totalPages
    if next ≠ page then some next else none

/-- Pagination source lines 206-209, the corrective effect:
`React.useEffect(() => { if (page !== safePage) onPageChange(safePage) }, [totalPages])`
with `safePage = clamp(page, 1, totalPages)` (line 204). Note the effect does
not consult `disabled`. -/
def correctiveEmit (page totalPages : ℤ) : Option ℤ :=
  let safePage := clamp page 1 totalPages
  if page ≠ safePage then some safePage else none

/-- The corrective effect as it runs on mount for a full prop valuation;
`disabled` is accepted (the claim quantifies over it) but, faithfully to the
source, ignored. -/
def mountEmit (disabled : Bool) (page pageSize total : ℤ) : Option ℤ :=
  match disabled with
  | _ => correctiveEmit page (totalPages total pageSize)

end Pagination

/-! ### DateInput date logic (src/src/atoms/DateInput/DateInput.tsx) -/

namespace DateInput

/-- A JavaScript `Date`: the calendar day (days since 1970-01-01) and the
time elapsed since that day's local midnight. Comparison of `Date`s compares
timestamps, i.e. is lexicographic in `(day, timeOfDay)`. -/
structure JsDate where
  day : ℤ
  timeOfDay : ℚ
deriving DecidableEq

/-- Timestamp order on `JsDate` (JavaScript `<` on dates). -/
def jsBefore (a b : JsDate) : Bool :=
  a.day < b.day || (a.day = b.day && a.timeOfDay < b.timeOfDay)

/-- DateInput.tsx lines 26-27:
`const startOfDay = (d) => new Date(d.getFullYear(), d.getMonth(), d.getDate())`. -/
def startOfDay (d : JsDate) : JsDate := ⟨d.day, 0⟩

/-- DateInput.tsx lines 128-129:
`const isOutOfRange = (d) => (min && d < startOfDay(min)) || (max && d > startOfDay(max))`. -/
def isOutOfRange (mn mx : Option JsDate) (d : JsDate) : Bool :=
  (match mn with
    | some m => jsBefore d (startOfDay m)
    | none => false) ||
  (match mx with
    | some m => jsBefore (startOfDay m) d
    | none => false)

/-- DateInput.tsx lines 131-132:
`const isDisabled = (d) => !!(disabledDates && disabledDates(d)) || isOutOfRange(d)`. -/
def isDisabledDay (disabledDates : JsDate → Bool) (mn mx : Option JsDate) (d : JsDate) : Bool :=
  disabledDates d || isOutOfRange mn mx d

/-- DateInput.tsx lines 140-145: `selectDate`. `some e` is the date passed to
`onChange`; `none` means `onChange` is not invoked (and the selected value is
left unchanged). `if (isDisabled(d) || disabled) return; const day = startOfDay(d); onChange?.(day)`. -/
def selectDate (disabled : Bool) (disabledDates : JsDate → Bool) (mn mx : Option JsDate)
    (d : JsDate) : Option JsDate :=
  if isDisabledDay disabledDates mn mx d || disabled then none else some (startOfDay d)

/-- DateInput.tsx lines 147-151: `clearDate`. `some none` is a call
`onChange(null)`; `none` means `onChange` is not invoked.
`if (disabled) return; onChange?.(null)`. -/
def clearDate (disabled : Bool) : Option (Option JsDate) :=
  if disabled then none else some none

/-- The proleptic-Gregorian civil-to-day-number conversion (Hinnant's
`days_from_civil`, the computation ECMAScript's `MakeDay` specifies), with
`m` the 1-based month. `daysFromCivil 1970 1 1 = 0`. -/
def daysFromCivil (y m d : ℤ) : ℤ :=
  let yAdj := if m ≤ 2 then y - 1 else y
  let era := (if 0 ≤ yAdj then yAdj else yAdj - 399) / 400
  let yoe := yAdj - era * 400
  let mp := if 2 < m then m - 3 else m + 9
  let doy := (153 * mp + 2) / 5 + d - 1
  let doe := yoe * 365 + yoe / 4 - yoe / 100 + doy
  era * 146097 + doe - 719468

/-- JavaScript `Date.prototype.getDay` on a day number
(1970-01-01 is a Thursday). -/
def dayOfWeek (z : ℤ) : ℤ := (z + 4) % 7

/-- `isLeapYear` per the Gregorian rule. -/
def isLeapYear (y : ℤ) : Bool := (y % 4 == 0 && y % 100 != 0) || y % 400 == 0

/-- The number of days of month `m` (1-based) of year `y`. -/
def monthLength (y m : ℤ) : ℤ :=
  if m = 2 then (if isLeapYear y then 29 else 28)
  else if m = 4 ∨ m = 6 ∨ m = 9 ∨ m = 11 then 30 else 31

/-- DateInput.tsx lines 44-47, as a day number: `firstOfMonth` is
`new Date(viewDate.getFullYear(), viewDate.getMonth(), 1)`, and
`start` subtracts `firstWeekDay = (firstOfMonth.getDay() + (7 - firstDay)) % 7`. -/
def gridStart (y m firstDay : ℤ) : ℤ :=
  daysFromCivil y m 1 - ((dayOfWeek (daysFromCivil y m 1) + (7 - firstDay)) % 7)

/-- DateInput.tsx lines 42-60: `getMonthMatrix(viewDate, firstDay)`, with the
view date given by its civil year and (1-based) month and cells as day
numbers. Builds 6 weeks of 7 cells, `cell = start + (w * 7 + d)` days. -/
def getMonthMatrix (y m firstDay : ℤ) : List (List ℤ) :=
  (List.range 6).map (fun w : ℕ =>
    (List.range 7).map (fun d : ℕ => gridStart y m firstDay + ((w : ℤ) * 7 + (d : ℤ))))

end DateInput

/-! ### Breadcrumb (src/unnamed/part_004, second document) -/

namespace Breadcrumb

/-- The result shape of `getDisplayedItems`. -/
structure DisplayedItems (α : Type) where
  head : List α
  middle : List α
  tail : List α
deriving DecidableEq

/-- Breadcrumb source lines 862-878: `getDisplayedItems(items, maxItems, tailCount)`.
`items.slice(-t)` (the last `t` elements, `t = max(2, tailCount)`) is
`drop (length - t)`; `items.slice(1, items.length - tail.length)` is
`(drop 1).take (length - tail.length - 1)`; `[items[0]]` is `take 1`
(the component only reaches the collapsed branch with a non-empty list). -/
def getDisplayedItems {α : Type} (items : List α) (maxItems tailCount : ℤ) :
    DisplayedItems α :=
  if (items.length : ℤ) ≤ maxItems then ⟨items, [], []⟩
  else
    let t := (max 2 tailCount).toNat
    let tail := items.drop (items.length - t)
    let middle := (items.drop 1).take (items.length - tail.length - 1)
    ⟨items.take 1, middle, tail⟩

end Breadcrumb

end AmorUI

/-! ## Theorems -/

namespace AmorUI

/-! ### C1 — Counter clamping -/

/-- C1: for the Counter with bounds `min ≤ max` and step `s ≥ 0`, the plus
click sets the value to `min(c + s, max)`, the minus click to
`max(c - s, min)`; whenever `min ≤ c ≤ max` both results stay in
`[min, max]`; and when the widget is disabled neither click changes the value
or invokes `onChange`. -/
theorem c1_counter_clamping (mn mx step c : ℚ) (hmm : mn ≤ mx) (hstep : 0 ≤ step) :
    Counter.inc false c step mx = some (min (c + step) mx) ∧
    Counter.dec false c step mn = some (max (c - step) mn) ∧
    (mn ≤ c → c ≤ mx →
      (∀ v, Counter.inc false c step mx = some v → mn ≤ v ∧ v ≤ mx) ∧
      (∀ v, Counter.dec false c step mn = some v → mn ≤ v ∧ v ≤ mx)) ∧
    Counter.inc true c step mx = none ∧ Counter.dec true c step mn = none := by
  refine ⟨rfl, rfl, ?_, rfl, rfl⟩
  intro h1 h2
  constructor
  · intro v hv
    rw [Counter.inc, if_neg (by simp)] at hv
    obtain rfl := Option.some.injEq _ _ ▸ hv
    exact ⟨le_min (by linarith) hmm, min_le_right _ _⟩
  · intro v hv
    rw [Counter.dec, if_neg (by simp)] at hv
    obtain rfl := Option.some.injEq _ _ ▸ hv
    exact ⟨le_max_right _ _, max_le (by linarith) hmm⟩

/-- Witness for C1 at `min = 0`, `max = 10`, `step = 2`, `c = 9`. -/
theorem c1_witness : (0 : ℚ) ≤ 10 ∧ (10 : ℚ) ≤ 10 :=
  ((c1_counter_clamping 0 10 2 9 (by norm_num) (by norm_num)).2.2.1 (by norm_num)
    (by norm_num)).1 10 (by norm_num [Counter.inc])

/-! ### C2 — size fallback -/

/-- C2 counterexample: the claim says every size-accepting widget (Counter
among them) falls back to the `"md"` size styles on an invalid size value.
Counter does not: its `safeSize = sizeStyles[size]` (Counter.tsx line 109)
has no fallback, so an invalid size contributes no size class at all, which
differs from the `"md"` class. -/
theorem c2_counterexample :
    Counter.safeSize "2xl" = none ∧
    Counter.sizeClass "2xl" ≠ Counter.sizeClass "md" := by
  constructor <;> decide

/-- C2 (amended): for a size value that is not a declared key, Badge,
RatingStars and Avatar fall back to the `"md"` size styles, while Counter
renders with no size class at all (its lookup yields `undefined`, dropped by
the class joiner). -/
theorem c2_size_fallback (s : String)
    (hb : Badge.sizes.lookup s = none) (hr : RatingStars.sizeStyles.lookup s = none)
    (ha : Avatar.sizeStyles.lookup s = none) (hc : Counter.sizeStyles.lookup s = none) :
    Badge.safeSize s = "md" ∧ RatingStars.safeSize s = "md" ∧ Avatar.safeSize s = "md" ∧
    Counter.safeSize s = none ∧ Counter.sizeClass s = "" := by
  simp [Badge.safeSize, RatingStars.safeSize, Avatar.safeSize, Counter.safeSize,
    Counter.sizeClass, hb, hr, ha, hc]

/-- Witness for C2 (amended) at the invalid size value `"giant"`. -/
theorem c2_witness :
    Badge.safeSize "giant" = "md" ∧ RatingStars.safeSize "giant" = "md" ∧
    Avatar.safeSize "giant" = "md" ∧ Counter.safeSize "giant" = none ∧
    Counter.sizeClass "giant" = "" :=
  c2_size_fallback "giant" (by decide) (by decide) (by decide) (by decide)

/-! ### C7 — useControllableState -/

/-- C7: when the `value` prop is defined the hook is controlled — the
reported current value equals the prop and `set(next)` leaves the internal
state unchanged while still passing `next` to `onChange`; when `value` is
undefined the reported value is the internal state and `set(next)` updates
the internal state to `next` and passes `next` to `onChange`. -/
theorem c7_controllable_state {α : Type} (value : Option α) (state next : α) :
    (∀ v, value = some v →
      Controllable.current value state = v ∧
      (Controllable.set value state next).1 = state ∧
      (Controllable.set value state next).2 = next) ∧
    (value = none →
      Controllable.current value state = state ∧
      (Controllable.set value state next).1 = next ∧
      (Controllable.set value state next).2 = next) := by
  constructor
  · rintro v rfl
    exact ⟨rfl, rfl, rfl⟩
  · rintro rfl
    exact ⟨rfl, rfl, rfl⟩

/-- Witness for C7 at `value = some 5`, `state = 1`, `next = 7` (controlled). -/
theorem c7_witness :
    Controllable.current (some (5 : ℤ)) 1 = 5 ∧
    (Controllable.set (some (5 : ℤ)) 1 7).1 = 1 ∧
    (Controllable.set (some (5 : ℤ)) 1 7).2 = 7 :=
  (c7_controllable_state (some 5) 1 7).1 5 rfl

/-! ### C10 — Breadcrumb getDisplayedItems -/

/-- C10: whenever `max 2 tailCount < items.length`, the head, middle and tail
segments of `getDisplayedItems` concatenate to exactly the original list; in
the collapsed branch the head is the first item and the tail is the last
`max 2 tailCount` items, and whenever `items.length ≤ maxItems` the head is
the whole list with middle and tail empty. -/
theorem c10_breadcrumb_partition (α : Type) (items : List α) (maxItems tailCount : ℤ)
    (h : max 2 tailCount < (items.length : ℤ)) :
    (Breadcrumb.getDisplayedItems items maxItems tailCount).head ++
      (Breadcrumb.getDisplayedItems items maxItems tailCount).middle ++
      (Breadcrumb.getDisplayedItems items maxItems tailCount).tail = items ∧
    ((items.length : ℤ) ≤ maxItems →
      Breadcrumb.getDisplayedItems items maxItems tailCount =
        ⟨items, [], []⟩) ∧
    (maxItems < (items.length : ℤ) →
      (Breadcrumb.getDisplayedItems items maxItems tailCount).head = items.take 1 ∧
      (Breadcrumb.getDisplayedItems items maxItems tailCount).tail =
        items.drop (items.length - (max 2 tailCount).toNat) ∧
      (((Breadcrumb.getDisplayedItems items maxItems tailCount).tail.length : ℤ) =
        max 2 tailCount)) := by
  unfold Breadcrumb.getDisplayedItems
  by_cases hle : (items.length : ℤ) ≤ maxItems
  · rw [if_pos hle]
    exact ⟨by simp, fun _ => rfl, fun hgt => absurd hle (not_le.mpr hgt)⟩
  · rw [if_neg hle]
    have ht2 : 2 ≤ (max 2 tailCount).toNat := by omega
    have htlt : (max 2 tailCount).toNat < items.length := by omega
    set t := (max 2 tailCount).toNat with htdef
    have htail_len : (items.drop (items.length - t)).length = t := by
      rw [List.length_drop]
      omega
    refine ⟨?_, fun hle2 => absurd hle2 hle, fun _ => ⟨rfl, rfl, by rw [htail_len]; omega⟩⟩
    simp only [htail_len]
    rw [show items.take 1 ++ (items.drop 1).take (items.length - t - 1) =
        items.take (items.length - t) by
      rw [← List.take_add]
      congr 1
      omega]
    exact List.take_append_drop _ _

/-- Witness for C10 at `items = [0, 1, 2, 3]`, `maxItems = 3`, `tailCount = 2`. -/
theorem c10_witness :
    (Breadcrumb.getDisplayedItems ([0, 1, 2, 3] : List ℤ) 3 2).head ++
      (Breadcrumb.getDisplayedItems ([0, 1, 2, 3] : List ℤ) 3 2).middle ++
      (Breadcrumb.getDisplayedItems ([0, 1, 2, 3] : List ℤ) 3 2).tail = [0, 1, 2, 3] :=
  (c10_breadcrumb_partition ℤ [0, 1, 2, 3] 3 2 (by decide)).1

/-! ### C3 — no surfaced errors (except Intl construction) -/

/-- C3 counterexample: the claim says no widget's rendering logic ever raises
an error, for every prop valuation including arbitrary locale strings. But
DateInput's render body unconditionally evaluates
`new Intl.DateTimeFormat(locale, ...)` (DateInput.tsx line 117), which per
ECMA-402 throws a `RangeError` for a locale string that is not a structurally
valid language tag, such as `"not a locale!"`. -/
theorem c3_counterexample :
    DateInput.renderFormats "not a locale!" = Except.error "RangeError" := by
  rw [DateInput.renderFormats,
    show Intl.DateTimeFormatNew "not a locale!" = Except.error "RangeError" by
      rw [Intl.DateTimeFormatNew, if_neg]
      rw [Bool.not_eq_true]
      decide]
  rfl

/-- Helper: RatingStars `roundTo` with `precision = 0` silently yields `NaN`
(`n / 0` is an infinity or `NaN`, and `Infinity * 0 = NaN`): no error is
raised. -/
theorem roundTo_precision_zero (n : JsNum) :
    RatingStars.roundTo (JsNum.fin 0) n = JsNum.nan := by
  cases n with
  | fin a =>
    rcases lt_trichotomy a 0 with h | h | h
    · simp [RatingStars.roundTo, JsNum.div, JsNum.jsRound, JsNum.mul, ne_of_lt h,
        not_lt.mpr h.le]
    · subst h
      simp [RatingStars.roundTo, JsNum.div, JsNum.jsRound, JsNum.mul]
    · simp [RatingStars.roundTo, JsNum.div, JsNum.jsRound, JsNum.mul, ne_of_gt h, h]
  | posInf => simp [RatingStars.roundTo, JsNum.div, JsNum.jsRound, JsNum.mul]
  | negInf => simp [RatingStars.roundTo, JsNum.div, JsNum.jsRound, JsNum.mul]
  | nan => simp [RatingStars.roundTo, JsNum.div, JsNum.jsRound, JsNum.mul]

/-- Helper: `Pagination.totalPages` is total and defaults to at least one
page for every `total` and `pageSize` (including `pageSize = 0`). -/
theorem totalPages_pos (total pageSize : ℤ) : 1 ≤ Pagination.totalPages total pageSize :=
  le_max_left _ _

/-- Helper: the ProgressBar percentage is always a finite rational in
`[0, 100]`, for every `value`, `min`, `max` (including `min > max` and
non-finite inputs). -/
theorem pVal_mem_Icc (value mn mx : JsNum) :
    ∃ q : ℚ, ProgressBar.pVal value mn mx = JsNum.fin q ∧ 0 ≤ q ∧ q ≤ 100 := by
  unfold ProgressBar.pVal
  cases hx : JsNum.mul
      (JsNum.div (JsNum.sub value (ProgressBar.safeMin mn mx)) (ProgressBar.span mn mx))
      (JsNum.fin 100) with
  | fin q =>
    refine ⟨min 100 (max 0 q), ?_, le_min (by norm_num) (le_max_left _ _), min_le_left _ _⟩
    simp [ProgressBar.clamp, JsNum.isFinite, JsNum.jsMin, JsNum.jsMax]
  | posInf => exact ⟨0, by simp [ProgressBar.clamp, JsNum.isFinite], le_refl _, by norm_num⟩
  | negInf => exact ⟨0, by simp [ProgressBar.clamp, JsNum.isFinite], le_refl _, by norm_num⟩
  | nan => exact ⟨0, by simp [ProgressBar.clamp, JsNum.isFinite], le_refl _, by norm_num⟩

/-- C3 (amended): evaluating the widgets' defensive numeric logic returns a
result for every prop valuation — `precision = 0` silently yields `NaN`
ratings, `pageSize = 0` silently defaults to one page, `min > max` still
yields an in-range percentage — but DateInput's rendering, which constructs
`Intl.DateTimeFormat` directly from the `locale` prop, raises a `RangeError`
for a malformed (structurally invalid) locale string instead of falling back
to a default. -/
theorem c3_no_failure_except_locale :
    (∀ locale : String, Intl.localeWellFormed locale = false →
      DateInput.renderFormats locale = Except.error "RangeError") ∧
    (∀ n : JsNum, RatingStars.roundTo (JsNum.fin 0) n = JsNum.nan) ∧
    (∀ total pageSize : ℤ, 1 ≤ Pagination.totalPages total pageSize) ∧
    (∀ value mn mx : JsNum,
      ∃ q : ℚ, ProgressBar.pVal value mn mx = JsNum.fin q ∧ 0 ≤ q ∧ q ≤ 100) := by
  refine ⟨?_, roundTo_precision_zero, totalPages_pos, pVal_mem_Icc⟩
  intro locale hbad
  rw [DateInput.renderFormats,
    show Intl.DateTimeFormatNew locale = Except.error "RangeError" by
      simp [Intl.DateTimeFormatNew, hbad]]
  rfl

/-- Witness for C3 (amended) at the malformed locale `"--"` (an empty
subtag), the rating `n = 3`, and `total = 7`, `pageSize = 0`. -/
theorem c3_witness :
    DateInput.renderFormats "--" = Except.error "RangeError" ∧
    RatingStars.roundTo (JsNum.fin 0) (JsNum.fin 3) = JsNum.nan ∧
    1 ≤ Pagination.totalPages 7 0 :=
  ⟨c3_no_failure_except_locale.1 "--" (by decide),
   c3_no_failure_except_locale.2.1 (JsNum.fin 3),
   c3_no_failure_except_locale.2.2.1 7 0⟩

/-! ### C5 — DateInput selection guards -/

/-- C5: DateInput invokes `onChange` only with `null` (when cleared) or with
a start-of-day date that is not before the start of `min`'s day, not after
the start of `max`'s day, and not excluded by `disabledDates`; selecting a
disabled or out-of-range day, or interacting while the input is disabled,
invokes no callback (so the value is left unchanged). All selection paths
(day-cell click, Enter/Space on the focused day, the Today button) pass a
start-of-day date, which the hypothesis `d.timeOfDay = 0` captures. -/
theorem c5_dateinput_selection (disabled : Bool) (disabledDates : DateInput.JsDate → Bool)
    (mn mx : Option DateInput.JsDate) (d : DateInput.JsDate) (hd : d.timeOfDay = 0) :
    (∀ e, DateInput.selectDate disabled disabledDates mn mx d = some e →
      e = DateInput.startOfDay e ∧ disabledDates e = false ∧
      (∀ m, mn = some m → DateInput.jsBefore e (DateInput.startOfDay m) = false) ∧
      (∀ m, mx = some m → DateInput.jsBefore (DateInput.startOfDay m) e = false)) ∧
    (DateInput.isDisabledDay disabledDates mn mx d = true ∨ disabled = true →
      DateInput.selectDate disabled disabledDates mn mx d = none) ∧
    (∀ x, DateInput.clearDate disabled = some x → x = none) := by
  have hstart : DateInput.startOfDay d = d := by
    cases d
    simp only [DateInput.startOfDay] at *
    rw [hd]
  refine ⟨?_, ?_, ?_⟩
  · intro e he
    unfold DateInput.selectDate at he
    by_cases hc : (DateInput.isDisabledDay disabledDates mn mx d || disabled) = true
    · rw [if_pos hc] at he
      cases he
    · rw [if_neg hc] at he
      have hc' : (DateInput.isDisabledDay disabledDates mn mx d || disabled) = false := by
        cases hh : (DateInput.isDisabledDay disabledDates mn mx d || disabled)
        · rfl
        · exact absurd hh hc
      have hdis : DateInput.isDisabledDay disabledDates mn mx d = false :=
        (Bool.or_eq_false_iff.mp hc').1
      obtain rfl : DateInput.startOfDay d = e := Option.some.injEq _ _ ▸ he
      rw [hstart]
      have hdd : disabledDates d = false ∧ DateInput.isOutOfRange mn mx d = false := by
        simpa [DateInput.isDisabledDay] using hdis
      refine ⟨hstart.symm, hdd.1, ?_, ?_⟩
      · rintro m rfl
        have := hdd.2
        simp only [DateInput.isOutOfRange, Bool.or_eq_false_iff] at this
        exact this.1
      · rintro m rfl
        have := hdd.2
        simp only [DateInput.isOutOfRange, Bool.or_eq_false_iff] at this
        exact this.2
  · intro hor
    unfold DateInput.selectDate
    rcases hor with h | h <;> simp [h]
  · intro x hx
    cases disabled <;> simp [DateInput.clearDate] at hx
    exact hx.symm

/-- Witness for C5: selecting day 5 with `min` day 0, `max` day 10, no
disabled dates, widget enabled. -/
theorem c5_witness :
    (⟨5, 0⟩ : DateInput.JsDate) = DateInput.startOfDay ⟨5, 0⟩ ∧
    (fun _ : DateInput.JsDate => false) (⟨5, 0⟩ : DateInput.JsDate) = false ∧
    (∀ m, (some (⟨0, 0⟩ : DateInput.JsDate)) = some m →
      DateInput.jsBefore ⟨5, 0⟩ (DateInput.startOfDay m) = false) ∧
    (∀ m, (some (⟨10, 0⟩ : DateInput.JsDate)) = some m →
      DateInput.jsBefore (DateInput.startOfDay m) ⟨5, 0⟩ = false) :=
  (c5_dateinput_selection false (fun _ => false) (some ⟨0, 0⟩) (some ⟨10, 0⟩) ⟨5, 0⟩ rfl).1
    ⟨5, 0⟩ (by simp [DateInput.selectDate, DateInput.isDisabledDay, DateInput.isOutOfRange,
      DateInput.jsBefore, DateInput.startOfDay])

/-! ### C6 — ProgressBar percentage -/

/-- Helper: on the `JsNum` model, `(A / s) * 100 = (100 * A) / s` in all
cases, including the non-finite and divide-by-zero ones. -/
theorem mul100_div_comm (A s : JsNum) :
    JsNum.mul (JsNum.div A s) (JsNum.fin 100) = JsNum.div (JsNum.mul (JsNum.fin 100) A) s := by
  have h100 : (0 : ℚ) < 100 := by norm_num
  cases A with
  | nan => cases s <;> simp [JsNum.div, JsNum.mul]
  | posInf =>
    cases s with
    | fin b =>
      by_cases hb : b < 0 <;> simp [JsNum.div, JsNum.mul, hb, h100]
    | posInf => simp [JsNum.div, JsNum.mul, h100]
    | negInf => simp [JsNum.div, JsNum.mul, h100]
    | nan => simp [JsNum.div, JsNum.mul]
  | negInf =>
    cases s with
    | fin b =>
      by_cases hb : b < 0 <;> simp [JsNum.div, JsNum.mul, hb, h100]
    | posInf => simp [JsNum.div, JsNum.mul, h100]
    | negInf => simp [JsNum.div, JsNum.mul, h100]
    | nan => simp [JsNum.div, JsNum.mul]
  | fin a =>
    cases s with
    | nan => simp [JsNum.div, JsNum.mul]
    | posInf => simp [JsNum.div, JsNum.mul]
    | negInf => simp [JsNum.div, JsNum.mul]
    | fin b =>
      by_cases hb : b = 0
      · subst hb
        rcases lt_trichotomy a 0 with h | h | h
        · simp [JsNum.div, JsNum.mul, ne_of_lt h, not_lt.mpr h.le, h100,
            mul_neg_of_pos_of_neg h100 h, (by linarith : ¬ (0:ℚ) < 100 * a),
            (by linarith : (100:ℚ) * a ≠ 0)]
        · subst h
          simp [JsNum.div, JsNum.mul]
        · simp [JsNum.div, JsNum.mul, ne_of_gt h, h, h100, mul_pos h100 h,
            (by positivity : (100:ℚ) * a ≠ 0)]
      · simp [JsNum.div, JsNum.mul, hb]
        ring

/-- Helper: subtracting anything from a non-finite value is non-finite. -/
theorem sub_nonfinite (v x : JsNum) (h : v.isFinite = false) :
    (JsNum.sub v x).isFinite = false := by
  cases v <;> cases x <;> simp_all [JsNum.sub, JsNum.isFinite]

/-- Helper: dividing a non-finite value by anything is non-finite. -/
theorem div_nonfinite (a b : JsNum) (h : a.isFinite = false) :
    (JsNum.div a b).isFinite = false := by
  cases a <;> cases b <;> simp_all [JsNum.div, JsNum.isFinite] <;> split_ifs <;>
    simp [JsNum.isFinite]

/-- Helper: a non-finite value times 100 is non-finite. -/
theorem mul_hundred_nonfinite (a : JsNum) (h : a.isFinite = false) :
    (JsNum.mul a (JsNum.fin 100)).isFinite = false := by
  cases a <;> simp_all [JsNum.mul, JsNum.isFinite]

/-- Helper: clamping a non-finite value yields the lower bound. -/
theorem clamp_nonfinite (x mn mx : JsNum) (h : x.isFinite = false) :
    ProgressBar.clamp x mn mx = mn := by
  simp [ProgressBar.clamp, h]

/-- C6: for every `value`, `min`, `max` (including `min > max` and non-finite
values), the ProgressBar fill percentage equals
`clamp(100 * (value - min') / max(1, max' - min'), 0, 100)` with
`min' = min(min, max)`, `max' = max(min, max)`; it is always a finite
rational in `[0, 100]`; a non-finite `value` yields `0`; and when not
indeterminate, `aria-valuenow` is that percentage rounded to the nearest
integer. -/
theorem c6_progressbar_pct (value mn mx : JsNum) :
    ProgressBar.pVal value mn mx = ProgressBar.specPct value mn mx ∧
    (∃ q : ℚ, ProgressBar.pVal value mn mx = JsNum.fin q ∧ 0 ≤ q ∧ q ≤ 100) ∧
    (value.isFinite = false → ProgressBar.pVal value mn mx = JsNum.fin 0) ∧
    ProgressBar.ariaNow false value mn mx =
      some (JsNum.jsRound (ProgressBar.pVal value mn mx)) ∧
    ProgressBar.ariaNow true value mn mx = none := by
  refine ⟨?_, pVal_mem_Icc value mn mx, ?_, rfl, rfl⟩
  · unfold ProgressBar.pVal ProgressBar.specPct ProgressBar.span ProgressBar.safeMax
      ProgressBar.safeMin
    rw [mul100_div_comm]
  · intro hv
    unfold ProgressBar.pVal
    exact clamp_nonfinite _ _ _
      (mul_hundred_nonfinite _ (div_nonfinite _ _ (sub_nonfinite _ _ hv)))

/-- Witness for C6: a non-finite `value` (`+Infinity`) with `min = 0`,
`max = 100` yields percentage `0`. -/
theorem c6_witness :
    ProgressBar.pVal JsNum.posInf (JsNum.fin 0) (JsNum.fin 100) = JsNum.fin 0 :=
  (c6_progressbar_pct JsNum.posInf (JsNum.fin 0) (JsNum.fin 100)).2.2.1 rfl

/-! ### C4 — Pagination callback invariants -/

/-- Helper: concrete evaluation of `totalPages 50 10`. -/
theorem totalPages_50_10 : Pagination.totalPages 50 10 = 5 := by
  unfold Pagination.totalPages
  rw [show (((50 : ℤ) : ℚ) / ((max 1 10 : ℤ) : ℚ)) = (5 : ℚ) by norm_num,
    show ⌈(5 : ℚ)⌉ = 5 from Int.ceil_intCast 5]
  norm_num

/-- C4 counterexample: the claim says no callback fires while the component
is disabled, but the corrective effect (Pagination source lines 206-209) does
not consult `disabled`: with `disabled = true`, `page = 10`, `pageSize = 10`,
`total = 50` (so `totalPages = 5`), mounting invokes `onPageChange(5)`. -/
theorem c4_counterexample :
    Pagination.mountEmit true 10 10 50 = some 5 ∧
    Pagination.mountEmit true 10 10 50 ≠ none := by
  have h : Pagination.mountEmit true 10 10 50 = some 5 := by
    unfold Pagination.mountEmit Pagination.correctiveEmit Pagination.clamp
    rw [totalPages_50_10]
    decide
  exact ⟨h, by rw [h]; exact Option.some_ne_none _⟩

/-- C4 (amended): every value passed to `onPageChange` — whether from `goTo`
(page-number clicks, first/prev/next/last buttons, arrow/Home/End key
handlers) or from the corrective effect — lies in `[1, totalPages]`, and
`goTo` never invokes `onPageChange` when the clamped target equals the
current `page` prop; `goTo`-driven callbacks never fire while the component
is disabled, but the corrective effect ignores `disabled` and may still fire
(its value also lies in `[1, totalPages]`). -/
theorem c4_pagination_callbacks (disabled : Bool) (page pageSize total n : ℤ) :
    (∀ v, Pagination.goTo disabled page (Pagination.totalPages total pageSize) n = some v →
      1 ≤ v ∧ v ≤ Pagination.totalPages total pageSize) ∧
    (∀ v, Pagination.mountEmit disabled page pageSize total = some v →
      1 ≤ v ∧ v ≤ Pagination.totalPages total pageSize) ∧
    (Pagination.clamp n 1 (Pagination.totalPages total pageSize) = page →
      Pagination.goTo disabled page (Pagination.totalPages total pageSize) n = none) ∧
    (disabled = true →
      Pagination.goTo disabled page (Pagination.totalPages total pageSize) n = none) := by
  have htp : 1 ≤ Pagination.totalPages total pageSize := le_max_left _ _
  refine ⟨?_, ?_, ?_, ?_⟩
  · intro v hv
    unfold Pagination.goTo at hv
    cases disabled
    · simp only [Bool.false_eq_true, if_false] at hv
      by_cases hne : Pagination.clamp n 1 (Pagination.totalPages total pageSize) ≠ page
      · rw [if_pos hne] at hv
        obtain rfl := Option.some.injEq _ _ ▸ hv
        unfold Pagination.clamp
        omega
      · rw [if_neg hne] at hv
        cases hv
    · simp at hv
  · intro v hv
    unfold Pagination.mountEmit Pagination.correctiveEmit at hv
    by_cases hne : page ≠ Pagination.clamp page 1 (Pagination.totalPages total pageSize)
    · rw [if_pos hne] at hv
      obtain rfl := Option.some.injEq _ _ ▸ hv
      unfold Pagination.clamp
      omega
    · rw [if_neg hne] at hv
      cases hv
  · intro heq
    unfold Pagination.goTo
    cases disabled
    · simp [heq]
    · simp
  · rintro rfl
    rfl

/-- Witness for C4 (amended): with `disabled = true` the `goTo` path invokes
no callback. -/
theorem c4_witness :
    Pagination.goTo true 3 (Pagination.totalPages 50 10) 4 = none :=
  (c4_pagination_callbacks true 3 10 50 4).2.2.2 rfl

/-! ### C9 — DateInput month matrix -/

/-- Helper: `daysFromCivil` is linear in the day-of-month argument. -/
theorem daysFromCivil_linear (y m d : ℤ) :
    DateInput.daysFromCivil y m d = DateInput.daysFromCivil y m 1 + (d - 1) := by
  unfold DateInput.daysFromCivil
  dsimp only
  ring

/-- Helper: every month has between 28 and 31 days. -/
theorem monthLength_bounds (y m : ℤ) :
    28 ≤ DateInput.monthLength y m ∧ DateInput.monthLength y m ≤ 31 := by
  unfold DateInput.monthLength
  split_ifs <;> norm_num

/-- Helper: the grid start is the `firstDay`-day-of-week on or before the
first of the month, at most 6 days earlier. -/
theorem gridStart_bounds (y m fd : ℤ) :
    DateInput.daysFromCivil y m 1 - 6 ≤ DateInput.gridStart y m fd ∧
    DateInput.gridStart y m fd ≤ DateInput.daysFromCivil y m 1 := by
  unfold DateInput.gridStart DateInput.dayOfWeek
  omega

/-- Helper: the first grid cell falls on day-of-week `firstDay`. -/
theorem gridStart_dayOfWeek (y m fd : ℤ) (hfd : fd = 0 ∨ fd = 1) :
    DateInput.dayOfWeek (DateInput.gridStart y m fd) = fd := by
  unfold DateInput.gridStart DateInput.dayOfWeek
  omega

/-- Helper: the flattened month matrix is 42 consecutive days from the grid
start. -/
theorem monthMatrix_join (y m fd : ℤ) :
    (DateInput.getMonthMatrix y m fd).join =
      (List.range 42).map (fun i : ℕ => DateInput.gridStart y m fd + (i : ℤ)) := by
  simp only [DateInput.getMonthMatrix]
  norm_num [List.range_succ]

/-- Helper: a shifted `List.range` counts each value in its span once. -/
theorem count_shifted_range (a x : ℤ) (n : ℕ) (h1 : a ≤ x) (h2 : x < a + n) :
    ((List.range n).map (fun i : ℕ => a + (i : ℤ))).count x = 1 := by
  refine List.count_eq_one_of_mem ?_ ?_
  · refine List.Nodup.map ?_ (List.nodup_range n)
    intro u v huv
    have : a + (u : ℤ) = a + (v : ℤ) := huv
    omega
  · simp only [List.mem_map, List.mem_range]
    exact ⟨(x - a).toNat, by omega, by omega⟩

/-- C9: for every view month and `firstDayOfWeek ∈ {0, 1}`, `getMonthMatrix`
returns exactly 6 rows of 7 cells holding 42 consecutive calendar days; the
first cell's day of week equals `firstDayOfWeek` and is at most 6 days before
the first of the view month; consequently every day of the view month appears
exactly once in the grid. -/
theorem c9_month_matrix (y m fd : ℤ) (hfd : fd = 0 ∨ fd = 1) :
    (DateInput.getMonthMatrix y m fd).length = 6 ∧
    (∀ row ∈ DateInput.getMonthMatrix y m fd, row.length = 7) ∧
    (DateInput.getMonthMatrix y m fd).join =
      (List.range 42).map (fun i : ℕ => DateInput.gridStart y m fd + (i : ℤ)) ∧
    DateInput.dayOfWeek (DateInput.gridStart y m fd) = fd ∧
    DateInput.daysFromCivil y m 1 - 6 ≤ DateInput.gridStart y m fd ∧
    DateInput.gridStart y m fd ≤ DateInput.daysFromCivil y m 1 ∧
    (∀ d : ℤ, 1 ≤ d → d ≤ DateInput.monthLength y m →
      ((DateInput.getMonthMatrix y m fd).join).count (DateInput.daysFromCivil y m d) = 1) := by
  refine ⟨rfl, ?_, monthMatrix_join y m fd, gridStart_dayOfWeek y m fd hfd,
    (gridStart_bounds y m fd).1, (gridStart_bounds y m fd).2, ?_⟩
  · intro row hrow
    simp only [DateInput.getMonthMatrix, List.mem_map] at hrow
    obtain ⟨w, _, rfl⟩ := hrow
    rfl
  · intro d hd1 hd2
    rw [monthMatrix_join, daysFromCivil_linear]
    have hb := gridStart_bounds y m fd
    have hm := monthLength_bounds y m
    refine count_shifted_range _ _ _ (by omega) (by push_cast; omega)

/-- Witness for C9 at September 2024 with Monday as first day of week. -/
theorem c9_witness : DateInput.dayOfWeek (DateInput.gridStart 2024 9 1) = 1 :=
  (c9_month_matrix 2024 9 1 (Or.inr rfl)).2.2.2.1

/-! ### C8 — Pagination buildRange -/

/-- Helper: membership in the pagination `range`. -/
theorem mem_pg_range {a e x : ℤ} : x ∈ Pagination.range a e ↔ a ≤ x ∧ x ≤ e := by
  unfold Pagination.range
  split_ifs with h
  · simp
    omega
  · simp only [List.mem_map, List.mem_range]
    constructor
    · rintro ⟨i, hi, rfl⟩
      omega
    · rintro ⟨h1, h2⟩
      exact ⟨(x - a).toNat, by omega, by omega⟩

/-- Helper: the pagination `range` has no duplicates. -/
theorem pg_range_nodup (a e : ℤ) : (Pagination.range a e).Nodup := by
  unfold Pagination.range
  split_ifs
  · exact List.nodup_nil
  · refine List.Nodup.map ?_ (List.nodup_range _)
    intro u v huv
    have : a + (u : ℤ) = a + (v : ℤ) := huv
    omega

/-- Helper: the pagination `range` is strictly increasing. -/
theorem pg_range_chain (a e : ℤ) : (Pagination.range a e).Chain' (· < ·) := by
  unfold Pagination.range
  split_ifs
  · exact List.chain'_nil
  · rw [List.chain'_map]
    refine ((List.pairwise_lt_range _).imp ?_).chain'
    intro x y hxy
    omega

/-- Helper: head of a non-empty pagination `range`. -/
theorem pg_range_head (a e : ℤ) (h : a ≤ e) : (Pagination.range a e).head? = some a := by
  unfold Pagination.range
  rw [if_neg (by omega)]
  rw [List.head?_map]
  obtain ⟨k, hk⟩ : ∃ k, (e - a + 1).toNat = k + 1 := ⟨(e - a).toNat, by omega⟩
  rw [hk, show (List.range (k + 1)).head? = some 0 by simp [List.range_succ_eq_map]]
  simp

/-- Helper: last element of a non-empty pagination `range`. -/
theorem pg_range_getLast (a e : ℤ) (h : a ≤ e) : (Pagination.range a e).getLast? = some e := by
  unfold Pagination.range
  rw [if_neg (by omega)]
  rw [List.getLast?_map]
  obtain ⟨k, hk⟩ : ∃ k, (e - a + 1).toNat = k + 1 := ⟨(e - a).toNat, by omega⟩
  rw [hk, show (List.range (k + 1)).getLast? = some k by
    rw [List.range_succ]
    simp]
  show some (a + (k : ℤ)) = some e
  congr 1
  omega

/-- Helper: a non-empty pagination `range`. -/
theorem pg_range_ne_nil (a e : ℤ) (h : a ≤ e) : Pagination.range a e ≠ [] := by
  intro hnil
  have : a ∈ Pagination.range a e := mem_pg_range.mpr ⟨le_refl a, h⟩
  rw [hnil] at this
  cases this

/-- Helper: an empty pagination `range`. -/
theorem pg_range_nil (a e : ℤ) (h : e < a) : Pagination.range a e = [] := by
  unfold Pagination.range
  rw [if_pos h]

/-- Helper: `ellipsis` never occurs among mapped page entries. -/
theorem ell_not_mem_map (l : List ℤ) :
    Pagination.RangeItem.ellipsis ∉ l.map Pagination.RangeItem.page := by
  intro h
  obtain ⟨a, _, ha⟩ := List.mem_map.mp h
  cases ha

/-- Helper: the dedup fold appends all pages when none are already present. -/
theorem foldl_dedup (l : List ℤ) (acc : List Pagination.RangeItem) (hnd : l.Nodup)
    (h : ∀ x ∈ l, Pagination.RangeItem.page x ∉ acc) :
    l.foldl (fun acc p => if Pagination.RangeItem.page p ∈ acc then acc
      else acc ++ [Pagination.RangeItem.page p]) acc = acc ++ l.map Pagination.RangeItem.page := by
  induction l generalizing acc with
  | nil => simp
  | cons x xs ih =>
    obtain ⟨hx, hnd'⟩ := List.nodup_cons.mp hnd
    simp only [List.foldl_cons]
    rw [if_neg (h x (List.mem_cons_self x xs))]
    rw [ih (acc ++ [Pagination.RangeItem.page x]) hnd' ?_]
    · simp
    · intro y hy
      simp only [List.mem_append, List.mem_singleton]
      push_neg
      refine ⟨h y (List.mem_cons_of_mem x hy), ?_⟩
      intro hc
      obtain rfl : y = x := by
        cases hc
        rfl
      exact hx hy

/-- Helper: closed form of `buildRange`. The dedup pass over `endPages` never
finds a duplicate, because every end page is at least
`max (totalPages - boundaryCount + 1) (boundaryCount + 1)`, strictly above
every start page (at most `boundaryCount`) and every middle page (at most
`totalPages - boundaryCount`). -/
theorem buildRange_eq (p tp s b : ℤ) :
    Pagination.buildRange p tp s b =
      (Pagination.range 1 (min b tp)).map Pagination.RangeItem.page
      ++ (if b + 1 < max (p - s) (b + 1) then [Pagination.RangeItem.ellipsis] else [])
      ++ (Pagination.range (max (p - s) (b + 1)) (min (p + s) (tp - b))).map
          Pagination.RangeItem.page
      ++ (if min (p + s) (tp - b) < tp - b then [Pagination.RangeItem.ellipsis] else [])
      ++ (Pagination.range (max (tp - b + 1) (b + 1)) tp).map Pagination.RangeItem.page := by
  unfold Pagination.buildRange
  dsimp only
  rw [foldl_dedup _ _ (pg_range_nodup _ _) (by
    intro x hx
    rw [mem_pg_range] at hx
    intro hmem
    split_ifs at hmem <;>
      simp only [List.mem_append, List.mem_map, List.mem_singleton, mem_pg_range,
        Pagination.RangeItem.page.injEq, reduceCtorEq, or_false, false_or,
        exists_eq_right] at hmem <;>
      omega)]
  split_ifs <;> simp [List.append_assoc]

/-- Helper: `numeric` distributes over append. -/
theorem numeric_append (l1 l2 : List Pagination.RangeItem) :
    Pagination.numeric (l1 ++ l2) = Pagination.numeric l1 ++ Pagination.numeric l2 :=
  List.filterMap_append l1 l2 _

/-- Helper: `numeric` undoes a `page` map. -/
theorem numeric_map_page (l : List ℤ) :
    Pagination.numeric (l.map Pagination.RangeItem.page) = l := by
  induction l with
  | nil => rfl
  | cons x xs ih =>
    unfold Pagination.numeric at ih ⊢
    simp only [List.map_cons, List.filterMap_cons]
    rw [ih]

/-- Helper: the numeric entries of `buildRange` in closed form. -/
theorem numeric_eq (p tp s b : ℤ) :
    Pagination.numeric (Pagination.buildRange p tp s b) =
      Pagination.range 1 (min b tp)
      ++ Pagination.range (max (p - s) (b + 1)) (min (p + s) (tp - b))
      ++ Pagination.range (max (tp - b + 1) (b + 1)) tp := by
  have hce : ∀ l, Pagination.numeric (Pagination.RangeItem.ellipsis :: l) =
      Pagination.numeric l := fun _ => rfl
  rw [buildRange_eq]
  split_ifs <;>
    simp [numeric_append, numeric_map_page, hce,
      show Pagination.numeric [Pagination.RangeItem.ellipsis] = [] from rfl,
      show Pagination.numeric [] = [] from rfl]

/-- Helper: the numeric entries of `buildRange` are strictly increasing
(for all prop values, even degenerate ones). -/
theorem numeric_chain (p tp s b : ℤ) :
    (Pagination.numeric (Pagination.buildRange p tp s b)).Chain' (· < ·) := by
  rw [numeric_eq]
  refine List.chain'_append.mpr ⟨List.chain'_append.mpr
    ⟨pg_range_chain _ _, pg_range_chain _ _, ?_⟩, pg_range_chain _ _, ?_⟩
  · intro x hx y hy
    have hx' := List.mem_of_getLast?_eq_some (Option.mem_def.mp hx)
    have hy' := List.mem_of_mem_head? hy
    rw [mem_pg_range] at hx' hy'
    omega
  · intro x hx y hy
    have hx' := List.mem_of_getLast?_eq_some (Option.mem_def.mp hx)
    have hy' := List.mem_of_mem_head? hy
    rw [List.mem_append] at hx'
    rw [mem_pg_range] at hy'
    rcases hx' with h | h <;> rw [mem_pg_range] at h <;> omega

/-- Helper: a list with a unique distinguished element decomposes uniquely
around it. -/
theorem mid_unique {α : Type} {x : α} :
    ∀ (X : List α) {Y pre suf : List α}, x ∉ X → x ∉ Y →
      X ++ x :: Y = pre ++ x :: suf → pre = X ∧ suf = Y := by
  intro X
  induction X with
  | nil =>
    intro Y pre suf hX hY h
    cases pre with
    | nil =>
      simp only [List.nil_append, List.cons.injEq] at h
      exact ⟨rfl, h.2.symm⟩
    | cons a pre' =>
      simp only [List.nil_append, List.cons_append, List.cons.injEq] at h
      exact absurd (by
        rw [h.2]
        exact List.mem_append_right _ (List.mem_cons_self _ _)) hY
  | cons a X' ih =>
    intro Y pre suf hX hY h
    cases pre with
    | nil =>
      simp only [List.cons_append, List.nil_append, List.cons.injEq] at h
      rw [h.1] at hX
      exact absurd (List.mem_cons_self _ _) hX
    | cons pfst pre' =>
      simp only [List.cons_append, List.cons.injEq] at h
      have hX' : x ∉ X' := fun hh => hX (List.mem_cons_of_mem _ hh)
      obtain ⟨rfl, rfl⟩ := ih hX' hY h.2
      exact ⟨by rw [h.1], rfl⟩

/-- Helper: a list with exactly two occurrences of a distinguished element
decomposes around one of them. -/
theorem mid_two {α : Type} {x : α} :
    ∀ (X : List α) {Y Z pre suf : List α}, x ∉ X → x ∉ Y → x ∉ Z →
      X ++ x :: (Y ++ x :: Z) = pre ++ x :: suf →
      (pre = X ∧ suf = Y ++ x :: Z) ∨ (pre = X ++ x :: Y ∧ suf = Z) := by
  intro X
  induction X with
  | nil =>
    intro Y Z pre suf hX hY hZ h
    cases pre with
    | nil =>
      simp only [List.nil_append, List.cons.injEq] at h
      exact Or.inl ⟨rfl, h.2.symm⟩
    | cons a pre' =>
      simp only [List.nil_append, List.cons_append, List.cons.injEq] at h
      obtain ⟨rfl, rfl⟩ := mid_unique Y hY hZ h.2
      exact Or.inr ⟨by rw [h.1]; simp, rfl⟩
  | cons a X' ih =>
    intro Y Z pre suf hX hY hZ h
    cases pre with
    | nil =>
      simp only [List.cons_append, List.nil_append, List.cons.injEq] at h
      rw [h.1] at hX
      exact absurd (List.mem_cons_self _ _) hX
    | cons pfst pre' =>
      simp only [List.cons_append, List.cons.injEq] at h
      have hX' : x ∉ X' := fun hh => hX (List.mem_cons_of_mem _ hh)
      rcases ih hX' hY hZ h.2 with ⟨rfl, rfl⟩ | ⟨rfl, rfl⟩
      · exact Or.inl ⟨by rw [h.1], rfl⟩
      · exact Or.inr ⟨by rw [h.1]; simp, rfl⟩

/-- Helper: under the component's prop contract and non-overlapping boundary
regions (`2 * boundaryCount < totalPages`), every ellipsis in `buildRange`
sits between two numeric entries omitting at least one page. -/
theorem gap_of_buildRange (p tp s b : ℤ) (hp1 : 1 ≤ p) (hp2 : p ≤ tp) (hs : 0 ≤ s)
    (hb : 1 ≤ b) (h2b : 2 * b < tp) :
    Pagination.gapSound (Pagination.buildRange p tp s b) := by
  intro pre suf hdec
  rw [buildRange_eq] at hdec
  have hAnot := ell_not_mem_map (Pagination.range 1 (min b tp))
  have hMnot := ell_not_mem_map
    (Pagination.range (max (p - s) (b + 1)) (min (p + s) (tp - b)))
  have hEnot := ell_not_mem_map (Pagination.range (max (tp - b + 1) (b + 1)) tp)
  have hEhead : ((Pagination.range (max (tp - b + 1) (b + 1)) tp).map
      Pagination.RangeItem.page).head? =
      some (Pagination.RangeItem.page (max (tp - b + 1) (b + 1))) := by
    rw [List.head?_map, pg_range_head _ _ (by omega)]
    rfl
  have hAlast : ((Pagination.range 1 (min b tp)).map Pagination.RangeItem.page).getLast? =
      some (Pagination.RangeItem.page (min b tp)) := by
    rw [List.getLast?_map, pg_range_getLast _ _ (by omega)]
    rfl
  by_cases c1 : b + 1 < max (p - s) (b + 1) <;>
    by_cases c2 : min (p + s) (tp - b) < tp - b
  · -- both ellipses; the middle window is non-empty since siblingCount ≥ 0
    rw [if_pos c1, if_pos c2] at hdec
    simp only [List.append_assoc, List.singleton_append] at hdec
    have hMne2 : max (p - s) (b + 1) ≤ min (p + s) (tp - b) := by omega
    have hMne : (Pagination.range (max (p - s) (b + 1)) (min (p + s) (tp - b))).map
        Pagination.RangeItem.page ≠ [] := by
      intro h
      exact pg_range_ne_nil _ _ hMne2 (List.map_eq_nil_iff.mp h)
    rcases mid_two _ hAnot hMnot hEnot hdec with ⟨rfl, rfl⟩ | ⟨rfl, rfl⟩
    · refine ⟨min b tp, max (p - s) (b + 1), hAlast, ?_, by omega⟩
      rw [List.head?_append_of_ne_nil _ hMne, List.head?_map, pg_range_head _ _ hMne2]
      rfl
    · refine ⟨min (p + s) (tp - b), max (tp - b + 1) (b + 1), ?_, hEhead, by omega⟩
      rw [List.getLast?_append_cons,
        show (Pagination.RangeItem.ellipsis ::
            (Pagination.range (max (p - s) (b + 1)) (min (p + s) (tp - b))).map
              Pagination.RangeItem.page) =
          [Pagination.RangeItem.ellipsis] ++
            (Pagination.range (max (p - s) (b + 1)) (min (p + s) (tp - b))).map
              Pagination.RangeItem.page from rfl,
        List.getLast?_append_of_ne_nil _ hMne, List.getLast?_map,
        pg_range_getLast _ _ hMne2]
      rfl
  · -- leading ellipsis only
    rw [if_pos c1, if_neg c2] at hdec
    simp only [List.append_assoc, List.singleton_append, List.append_nil,
      List.nil_append] at hdec
    have hnot : Pagination.RangeItem.ellipsis ∉
        (Pagination.range (max (p - s) (b + 1)) (min (p + s) (tp - b))).map
          Pagination.RangeItem.page ++
        (Pagination.range (max (tp - b + 1) (b + 1)) tp).map Pagination.RangeItem.page := by
      rw [List.mem_append]
      rintro (h | h)
      exacts [hMnot h, hEnot h]
    obtain ⟨rfl, rfl⟩ := mid_unique _ hAnot hnot hdec
    by_cases hM : max (p - s) (b + 1) ≤ min (p + s) (tp - b)
    · refine ⟨min b tp, max (p - s) (b + 1), hAlast, ?_, by omega⟩
      rw [List.head?_append_of_ne_nil _ (by
        intro h
        exact pg_range_ne_nil _ _ hM (List.map_eq_nil_iff.mp h)),
        List.head?_map, pg_range_head _ _ hM]
      rfl
    · have hMnil : Pagination.range (max (p - s) (b + 1)) (min (p + s) (tp - b)) = [] :=
        pg_range_nil _ _ (by omega)
      refine ⟨min b tp, max (tp - b + 1) (b + 1), hAlast, ?_, by omega⟩
      rw [hMnil]
      simp only [List.map_nil, List.nil_append]
      exact hEhead
  · -- trailing ellipsis only
    rw [if_neg c1, if_pos c2] at hdec
    simp only [List.append_assoc, List.singleton_append, List.append_nil,
      List.nil_append] at hdec
    rw [← List.append_assoc] at hdec
    have hnot : Pagination.RangeItem.ellipsis ∉
        (Pagination.range 1 (min b tp)).map Pagination.RangeItem.page ++
        (Pagination.range (max (p - s) (b + 1)) (min (p + s) (tp - b))).map
          Pagination.RangeItem.page := by
      rw [List.mem_append]
      rintro (h | h)
      exacts [hAnot h, hMnot h]
    obtain ⟨rfl, rfl⟩ := mid_unique _ hnot hEnot hdec
    by_cases hM : max (p - s) (b + 1) ≤ min (p + s) (tp - b)
    · refine ⟨min (p + s) (tp - b), max (tp - b + 1) (b + 1), ?_, hEhead, by omega⟩
      rw [List.getLast?_append_of_ne_nil _ (by
        intro h
        exact pg_range_ne_nil _ _ hM (List.map_eq_nil_iff.mp h)),
        List.getLast?_map, pg_range_getLast _ _ hM]
      rfl
    · have hMnil : Pagination.range (max (p - s) (b + 1)) (min (p + s) (tp - b)) = [] :=
        pg_range_nil _ _ (by omega)
      refine ⟨min b tp, max (tp - b + 1) (b + 1), ?_, hEhead, by omega⟩
      rw [hMnil]
      simp only [List.map_nil, List.append_nil]
      exact hAlast
  · -- no ellipsis at all: the decomposition is impossible
    rw [if_neg c1, if_neg c2] at hdec
    simp only [List.append_assoc, List.append_nil, List.nil_append] at hdec
    exfalso
    have hmem : Pagination.RangeItem.ellipsis ∈
        (Pagination.range 1 (min b tp)).map Pagination.RangeItem.page ++
        ((Pagination.range (max (p - s) (b + 1)) (min (p + s) (tp - b))).map
          Pagination.RangeItem.page ++
         (Pagination.range (max (tp - b + 1) (b + 1)) tp).map Pagination.RangeItem.page) := by
      rw [hdec]
      exact List.mem_append_right _ (List.mem_cons_self _ _)
    rcases List.mem_append.mp hmem with h | h
    · exact hAnot h
    · rcases List.mem_append.mp h with h | h
      exacts [hMnot h, hEnot h]

/-- C8 counterexample: at `page = 1`, `totalPages = 5`, `siblingCount = 0`,
`boundaryCount = 3` (all within the claim's hypotheses), `buildRange`
produces `[1, 2, 3, ellipsis, 4, 5]`: the ellipsis stands between the
adjacent pages 3 and 4, so it omits no page number. -/
theorem c8_counterexample :
    Pagination.buildRange 1 5 0 3 =
      [Pagination.RangeItem.page 1, Pagination.RangeItem.page 2, Pagination.RangeItem.page 3,
        Pagination.RangeItem.ellipsis, Pagination.RangeItem.page 4,
        Pagination.RangeItem.page 5] ∧
    ¬ Pagination.gapSound (Pagination.buildRange 1 5 0 3) := by
  refine ⟨by decide, ?_⟩
  intro h
  obtain ⟨n1, n2, h1, h2, h3⟩ := h
    [Pagination.RangeItem.page 1, Pagination.RangeItem.page 2, Pagination.RangeItem.page 3]
    [Pagination.RangeItem.page 4, Pagination.RangeItem.page 5] (by decide)
  obtain rfl : n1 = 3 := by
    cases Option.some.injEq _ _ ▸ (show some (Pagination.RangeItem.page 3) =
        some (Pagination.RangeItem.page n1) from h1)
    rfl
  obtain rfl : n2 = 4 := by
    cases Option.some.injEq _ _ ▸ (show some (Pagination.RangeItem.page 4) =
        some (Pagination.RangeItem.page n2) from h2)
    rfl
  omega

/-- C8 (amended): for `totalPages ≥ 1`, `1 ≤ page ≤ totalPages`,
`siblingCount ≥ 0` and `boundaryCount ≥ 1`, `buildRange` returns a sequence
whose numeric entries are strictly increasing (hence duplicate-free), all lie
in `[1, totalPages]`, and include 1, the current page and `totalPages`; and
whenever additionally `2 * boundaryCount < totalPages` (the two boundary
runs do not meet), every ellipsis entry stands in place of at least one page
number omitted between its neighbouring entries. (Without that extra bound
an ellipsis can sit between two consecutive pages, as the counterexample
shows.) -/
theorem c8_buildRange_structure (p tp s b : ℤ) (htp : 1 ≤ tp) (hp1 : 1 ≤ p) (hp2 : p ≤ tp)
    (hs : 0 ≤ s) (hb : 1 ≤ b) :
    (Pagination.numeric (Pagination.buildRange p tp s b)).Chain' (· < ·) ∧
    (Pagination.numeric (Pagination.buildRange p tp s b)).Nodup ∧
    (∀ x ∈ Pagination.numeric (Pagination.buildRange p tp s b), 1 ≤ x ∧ x ≤ tp) ∧
    1 ∈ Pagination.numeric (Pagination.buildRange p tp s b) ∧
    p ∈ Pagination.numeric (Pagination.buildRange p tp s b) ∧
    tp ∈ Pagination.numeric (Pagination.buildRange p tp s b) ∧
    (2 * b < tp → Pagination.gapSound (Pagination.buildRange p tp s b)) := by
  have hchain := numeric_chain p tp s b
  refine ⟨hchain, ?_, ?_, ?_, ?_, ?_, gap_of_buildRange p tp s b hp1 hp2 hs hb⟩
  · exact ((List.chain'_iff_pairwise.mp hchain).imp ne_of_lt)
  · rw [numeric_eq]
    intro x hx
    rcases List.mem_append.mp hx with h | h
    · rcases List.mem_append.mp h with h | h <;> rw [mem_pg_range] at h <;> omega
    · rw [mem_pg_range] at h
      omega
  · rw [numeric_eq]
    refine List.mem_append_left _ (List.mem_append_left _ (mem_pg_range.mpr ?_))
    omega
  · rw [numeric_eq]
    by_cases hcase1 : p ≤ b
    · exact List.mem_append_left _ (List.mem_append_left _ (mem_pg_range.mpr (by omega)))
    · by_cases hcase2 : p ≤ tp - b
      · exact List.mem_append_left _ (List.mem_append_right _ (mem_pg_range.mpr (by omega)))
      · exact List.mem_append_right _ (mem_pg_range.mpr (by omega))
  · rw [numeric_eq]
    by_cases hcase : tp ≤ b
    · exact List.mem_append_left _ (List.mem_append_left _ (mem_pg_range.mpr (by omega)))
    · exact List.mem_append_right _ (mem_pg_range.mpr (by omega))

/-- Witness for C8 (amended) at `page = 2`, `totalPages = 9`,
`siblingCount = 1`, `boundaryCount = 1`. -/
theorem c8_witness : (2 : ℤ) ∈ Pagination.numeric (Pagination.buildRange 2 9 1 1) :=
  (c8_buildRange_structure 2 9 1 1 (by norm_num) (by norm_num) (by norm_num) (by norm_num)
    (by norm_num)).2.2.2.2.1

end AmorUI
